import Mathlib

/-!
Verification of the IAC valve tester core (src/iac_tester/iac_tester.ino).

The development shallowly embeds the decoder, motor driver and event-log
portions of the sketch:

* `STEP_LOOKUP` — the 16-entry pattern-to-phase table (lines 210–214).
* `DecoderState` / `observe` — the PCM step decoder: the body of the
  `pcmStateChanged` branch of `monitorPcmSignals` (lines 2029–2056).
* `DriverState` with `executeStep`, `enableMotor`, `disableMotor`,
  `handleMoveContinuous`, `handleMoveSteps`, `handleStop`, and `tick`
  (the stepper-execution section of `loop`, lines 1919–1931).
* `EventLog` with `appendLog` (the logging block of `pcmPinChangeISR`,
  lines 1998–2014) and `exportAll` (the CSV body of `handleLogDownload`,
  lines 1503–1523).

Machine integers are modelled by `Int`/`Nat`; the C `%` on the involved
non-negative operands agrees with `Int.emod`/`Nat.mod`.
-/

/-- The pattern-to-phase table `STEP_LOOKUP` (lines 210–214):
pattern 5 ↦ step 0, 6 ↦ 1, 10 ↦ 2, 9 ↦ 3, every other index ↦ -1. -/
def STEP_LOOKUP : Nat → Int
  | 5 => 0
  | 6 => 1
  | 9 => 3
  | 10 => 2
  | _ => -1

/-- PCM decoder state: the volatile globals `pcmStepIndex`, `pcmDirection`,
`pcmStepPosition`, `prevPcmState` (lines 199–207). `pcmStepIndex = -1`
encodes the unknown last phase. -/
structure DecoderState where
  pcmStepIndex : Int
  pcmDirection : Int
  pcmStepPosition : Int
  prevPcmState : Nat
  deriving Repr, DecidableEq

/-- The decode step of `monitorPcmSignals` (lines 2039–2056): look up the
new step index, and when both the new and the previous index are known,
compare against the expected forward/reverse neighbours; finally store the
new index and the raw state unconditionally. -/
def observe (s : DecoderState) (currentState : Nat) : DecoderState :=
  let newStepIndex := STEP_LOOKUP currentState
  let s' :=
    if 0 ≤ newStepIndex ∧ 0 ≤ s.pcmStepIndex then
      let expectedFwd := (s.pcmStepIndex + 1) % 4
      let expectedRev := (s.pcmStepIndex + 3) % 4
      if newStepIndex = expectedFwd then
        { s with pcmDirection := 1, pcmStepPosition := s.pcmStepPosition + 1 }
      else if newStepIndex = expectedRev then
        { s with pcmDirection := -1, pcmStepPosition := s.pcmStepPosition - 1 }
      else s
    else s
  { s' with pcmStepIndex := newStepIndex, prevPcmState := currentState }

/-- Stepper driver state: the volatile globals of lines 159–168
(`currentStep`, `stepDelayMs`, `targetSteps`, `stepDirection`,
`motorEnabled`, `isMoving`, `youStepPosition`, `totalStepsTaken`). -/
structure DriverState where
  currentStep : Int
  stepDelayMs : Int
  targetSteps : Int
  stepDirection : Int
  motorEnabled : Bool
  isMoving : Bool
  youStepPosition : Int
  totalStepsTaken : Int
  deriving Repr, DecidableEq

/-- Function `executeStep` (lines 1948–1963): advance `currentStep` by the direction
with saturation-style wrap into 0..3, update the cumulative position and the
total step counter. The physical pin writes are external effects. -/
def executeStep (s : DriverState) : DriverState :=
  let c0 := s.currentStep + s.stepDirection
  let c1 := if c0 > 3 then 0 else c0
  let c2 := if c1 < 0 then 3 else c1
  { s with currentStep := c2,
           youStepPosition := s.youStepPosition + s.stepDirection,
           totalStepsTaken := s.totalStepsTaken + 1 }

/-- Function `enableMotor` (lines 1965–1969): set `motorEnabled`; the STBY pin write
is an external effect. -/
def enableMotor (s : DriverState) : DriverState :=
  { s with motorEnabled := true }

/-- Function `disableMotor` (lines 1971–1978): clear `motorEnabled`, `isMoving`,
`targetSteps`; the pin writes are external effects. -/
def disableMotor (s : DriverState) : DriverState :=
  { s with motorEnabled := false, isMoving := false, targetSteps := 0 }

/-- The `continuous` branch of `handleMove` (lines 1453–1459): fix the
direction from the sign of `dir`, zero `targetSteps`, enable the motor and
start moving. -/
def handleMoveContinuous (dir : Int) (s : DriverState) : DriverState :=
  let s1 := { s with stepDirection := if dir > 0 then 1 else -1,
                     targetSteps := 0 }
  let s2 := enableMotor s1
  { s2 with isMoving := true }

/-- The `steps` branch of `handleMove` (lines 1460–1467): direction from the
sign of `steps`, `targetSteps := abs steps`, enable the motor and start
moving. -/
def handleMoveSteps (steps : Int) (s : DriverState) : DriverState :=
  let s1 := { s with stepDirection := if steps > 0 then 1 else -1,
                     targetSteps := |steps| }
  let s2 := enableMotor s1
  { s2 with isMoving := true }

/-- Function `handleStop` (lines 1471–1477): clear `isMoving` and `targetSteps`,
then call `disableMotor`. -/
def handleStop (s : DriverState) : DriverState :=
  disableMotor { s with isMoving := false, targetSteps := 0 }

/-- The stepper-execution section of `loop` (lines 1919–1931): one tick.
A finite move executes a step, decrements `targetSteps` and, on reaching 0,
stops and disables; continuous mode just executes a step. -/
def tick (s : DriverState) : DriverState :=
  if s.isMoving ∧ s.targetSteps ≠ 0 then
    let s1 := executeStep s
    let s2 := { s1 with targetSteps := s1.targetSteps - 1 }
    if s2.targetSteps = 0 then
      disableMotor { s2 with isMoving := false }
    else s2
  else if s.isMoving ∧ s.targetSteps = 0 then
    executeStep s
  else s

/-- One record of the signal log: `struct SignalLog` (lines 174–181). -/
structure SignalLog where
  timestamp : Nat
  pcmA1 : Bool
  pcmA2 : Bool
  pcmB1 : Bool
  pcmB2 : Bool
  iacActive : Bool
  deriving Repr, DecidableEq, Inhabited

/-- Constant `LOG_BUFFER_SIZE` (line 185). -/
def LOG_BUFFER_SIZE : Nat := 10000

/-- The circular log buffer and its cursors: `signalLog`, `logHead`,
`logTail`, `logCount`, `logOverflow` (lines 186–190). The buffer is a total
map; only indices below `LOG_BUFFER_SIZE` are ever addressed. -/
structure EventLog where
  buf : Nat → SignalLog
  logHead : Nat
  logTail : Nat
  logCount : Nat
  logOverflow : Bool

/-- The startup state of the log: all cursors zero, no overflow
(initializers at lines 186–190). -/
def emptyLog : EventLog :=
  { buf := fun _ => default, logHead := 0, logTail := 0, logCount := 0,
    logOverflow := false }

/-- Build the record stored by `pcmPinChangeISR` (lines 1998–2003) from the
sampled 4-bit state, the timestamp and the `isMoving` flag. -/
def mkLogEntry (newState : Nat) (now : Nat) (moving : Bool) : SignalLog :=
  { timestamp := now,
    pcmA1 := Nat.testBit newState 0,
    pcmA2 := Nat.testBit newState 1,
    pcmB1 := Nat.testBit newState 2,
    pcmB2 := Nat.testBit newState 3,
    iacActive := moving }

/-- The buffer-append block of `pcmPinChangeISR` (lines 1998–2014): write
the entry at `logHead`, advance the head modulo the capacity, then either
grow `logCount` or mark overflow and evict the oldest entry by advancing
`logTail`. -/
def appendLog (e : SignalLog) (l : EventLog) : EventLog :=
  let buf' := fun i => if i = l.logHead then e else l.buf i
  let head' := (l.logHead + 1) % LOG_BUFFER_SIZE
  if l.logCount < LOG_BUFFER_SIZE then
    { buf := buf', logHead := head', logTail := l.logTail,
      logCount := l.logCount + 1, logOverflow := l.logOverflow }
  else
    { buf := buf', logHead := head',
      logTail := (l.logTail + 1) % LOG_BUFFER_SIZE,
      logCount := l.logCount, logOverflow := true }

/-- Append a list of entries in order, oldest first. -/
def appendAll (es : List SignalLog) (l : EventLog) : EventLog :=
  es.foldl (fun acc e => appendLog e acc) l

/-- The export loop of `handleLogDownload` (lines 1512–1523): read `count`
entries starting from `tail`, wrapping modulo the capacity, oldest first. -/
def exportAll (l : EventLog) : List SignalLog :=
  (List.range l.logCount).map (fun i => l.buf ((l.logTail + i) % LOG_BUFFER_SIZE))

/-! ### Decoder lemmas -/

theorem observe_pcmStepIndex (s : DecoderState) (q : Nat) :
    (observe s q).pcmStepIndex = STEP_LOOKUP q := by
  simp [observe]

theorem observe_frame_of_guard_false (s : DecoderState) (q : Nat)
    (h : ¬ (0 ≤ STEP_LOOKUP q ∧ 0 ≤ s.pcmStepIndex)) :
    (observe s q).pcmStepPosition = s.pcmStepPosition ∧
    (observe s q).pcmDirection = s.pcmDirection := by
  simp [observe, if_neg h]

theorem observe_frame_of_nonadjacent (s : DecoderState) (q : Nat)
    (h1 : STEP_LOOKUP q ≠ (s.pcmStepIndex + 1) % 4)
    (h2 : STEP_LOOKUP q ≠ (s.pcmStepIndex + 3) % 4) :
    (observe s q).pcmStepPosition = s.pcmStepPosition ∧
    (observe s q).pcmDirection = s.pcmDirection := by
  simp only [observe]
  split_ifs <;> first | exact ⟨rfl, rfl⟩ | (exfalso; omega)

/-- C1: from a known last phase `p0`, observing a pattern mapping to
`(p0+1) % 4` sets the direction to forward (1) and increments the position
by exactly 1; observing a pattern mapping to `(p0+3) % 4` sets the direction
to reverse (-1) and decrements the position by exactly 1. -/
theorem observe_adjacent_step (s : DecoderState) (qf qr : Nat)
    (hknown : 0 ≤ s.pcmStepIndex) (hlt : s.pcmStepIndex < 4)
    (hqf16 : qf < 16) (hqr16 : qr < 16)
    (hf : STEP_LOOKUP qf = (s.pcmStepIndex + 1) % 4)
    (hr : STEP_LOOKUP qr = (s.pcmStepIndex + 3) % 4) :
    (observe s qf).pcmDirection = 1 ∧
    (observe s qf).pcmStepPosition = s.pcmStepPosition + 1 ∧
    (observe s qr).pcmDirection = -1 ∧
    (observe s qr).pcmStepPosition = s.pcmStepPosition - 1 := by
  simp only [observe]
  split_ifs <;> first | exact ⟨rfl, rfl, rfl, rfl⟩ | (exfalso; omega)

theorem observe_adjacent_step_witness :
    ((0:Int) ≤ (0:Int) ∧ (0:Int) < 4 ∧ (6:Nat) < 16 ∧ (9:Nat) < 16 ∧
      STEP_LOOKUP 6 = ((0:Int) + 1) % 4 ∧ STEP_LOOKUP 9 = ((0:Int) + 3) % 4) ∧
    ((observe ⟨0, 0, 0, 5⟩ 6).pcmDirection = 1 ∧
     (observe ⟨0, 0, 0, 5⟩ 6).pcmStepPosition = (0:Int) + 1 ∧
     (observe ⟨0, 0, 0, 5⟩ 9).pcmDirection = -1 ∧
     (observe ⟨0, 0, 0, 5⟩ 9).pcmStepPosition = (0:Int) - 1) :=
  ⟨by refine ⟨by decide, by decide, by decide, by decide, by decide, by decide⟩,
   observe_adjacent_step ⟨0, 0, 0, 5⟩ 6 9 (by decide) (by decide) (by decide)
     (by decide) (by decide) (by decide)⟩

/-- C2: `observe` leaves position and direction unchanged whenever the
pattern is one of the 12 non-step values (lookup -1), or maps to a phase
that is neither the forward nor the reverse neighbour of the known last
phase (including the null transition to the same phase). -/
theorem observe_no_step_frame (s : DecoderState) (q : Nat) (hq : q < 16)
    (h : STEP_LOOKUP q < 0 ∨
         (0 ≤ s.pcmStepIndex ∧ 0 ≤ STEP_LOOKUP q ∧
          STEP_LOOKUP q ≠ (s.pcmStepIndex + 1) % 4 ∧
          STEP_LOOKUP q ≠ (s.pcmStepIndex + 3) % 4)) :
    (observe s q).pcmStepPosition = s.pcmStepPosition ∧
    (observe s q).pcmDirection = s.pcmDirection := by
  rcases h with h | ⟨h0, h1, h2, h3⟩
  · exact observe_frame_of_guard_false s q (by omega)
  · exact observe_frame_of_nonadjacent s q h2 h3

theorem observe_no_step_frame_witness :
    ((15:Nat) < 16 ∧
      (STEP_LOOKUP 15 < 0 ∨
        (0 ≤ (⟨0, 0, 0, 5⟩ : DecoderState).pcmStepIndex ∧ 0 ≤ STEP_LOOKUP 15 ∧
         STEP_LOOKUP 15 ≠ ((⟨0, 0, 0, 5⟩ : DecoderState).pcmStepIndex + 1) % 4 ∧
         STEP_LOOKUP 15 ≠ ((⟨0, 0, 0, 5⟩ : DecoderState).pcmStepIndex + 3) % 4))) ∧
    ((observe ⟨0, 0, 0, 5⟩ 15).pcmStepPosition
        = (⟨0, 0, 0, 5⟩ : DecoderState).pcmStepPosition ∧
     (observe ⟨0, 0, 0, 5⟩ 15).pcmDirection
        = (⟨0, 0, 0, 5⟩ : DecoderState).pcmDirection) :=
  ⟨⟨by decide, Or.inl (by decide)⟩,
   observe_no_step_frame ⟨0, 0, 0, 5⟩ 15 (by decide) (Or.inl (by decide))⟩

/-- C8: `STEP_LOOKUP` maps exactly patterns 5, 6, 10, 9 to phases 0, 1, 2, 3
respectively, and every other 4-bit pattern (including 15 and 0) to -1. -/
theorem STEP_LOOKUP_classification (p : Fin 16) :
    STEP_LOOKUP 5 = 0 ∧ STEP_LOOKUP 6 = 1 ∧
    STEP_LOOKUP 10 = 2 ∧ STEP_LOOKUP 9 = 3 ∧
    (p.val ≠ 5 → p.val ≠ 6 → p.val ≠ 10 → p.val ≠ 9 → STEP_LOOKUP p.val = -1) := by
  fin_cases p <;> decide

theorem STEP_LOOKUP_classification_witness :
    ((15:Fin 16).val ≠ 5 ∧ (15:Fin 16).val ≠ 6 ∧
     (15:Fin 16).val ≠ 10 ∧ (15:Fin 16).val ≠ 9) ∧
    STEP_LOOKUP (15:Fin 16).val = -1 :=
  ⟨by decide,
   (STEP_LOOKUP_classification 15).2.2.2.2 (by decide) (by decide)
     (by decide) (by decide)⟩

/-- C9: observing a non-step pattern resets the decoder's last phase to
unknown (-1); consequently, after a valid phase, a non-step pattern, and
then the forward-adjacent phase, the final observation changes neither
position nor direction — the step is lost. -/
theorem observe_nonstep_resets_phase (s : DecoderState) (q1 n q2 : Nat)
    (hq1 : q1 < 16) (hn : n < 16) (hq2 : q2 < 16)
    (hvalid : 0 ≤ STEP_LOOKUP q1)
    (hnon : STEP_LOOKUP n = -1)
    (hadj : STEP_LOOKUP q2 = (STEP_LOOKUP q1 + 1) % 4) :
    (∀ t : DecoderState, (observe t n).pcmStepIndex = -1) ∧
    (observe (observe (observe s q1) n) q2).pcmStepPosition
      = (observe (observe s q1) n).pcmStepPosition ∧
    (observe (observe (observe s q1) n) q2).pcmDirection
      = (observe (observe s q1) n).pcmDirection := by
  have hidx : ∀ t : DecoderState, (observe t n).pcmStepIndex = -1 := fun t => by
    rw [observe_pcmStepIndex, hnon]
  refine ⟨hidx, ?_⟩
  apply observe_frame_of_guard_false
  rw [hidx]
  omega

theorem observe_nonstep_resets_phase_witness :
    ((5:Nat) < 16 ∧ (0:Nat) < 16 ∧ (6:Nat) < 16 ∧
     0 ≤ STEP_LOOKUP 5 ∧ STEP_LOOKUP 0 = -1 ∧
     STEP_LOOKUP 6 = (STEP_LOOKUP 5 + 1) % 4) ∧
    ((∀ t : DecoderState, (observe t 0).pcmStepIndex = -1) ∧
     (observe (observe (observe ⟨-1, 0, 0, 0⟩ 5) 0) 6).pcmStepPosition
       = (observe (observe ⟨-1, 0, 0, 0⟩ 5) 0).pcmStepPosition ∧
     (observe (observe (observe ⟨-1, 0, 0, 0⟩ 5) 0) 6).pcmDirection
       = (observe (observe ⟨-1, 0, 0, 0⟩ 5) 0).pcmDirection) :=
  ⟨⟨by decide, by decide, by decide, by decide, by decide, by decide⟩,
   observe_nonstep_resets_phase ⟨-1, 0, 0, 0⟩ 5 0 6 (by decide) (by decide)
     (by decide) (by decide) (by decide) (by decide)⟩

/-! ### Driver lemmas -/

theorem tick_continuous_invariant (s : DriverState) (n : Nat)
    (hm : s.isMoving = true) (ht : s.targetSteps = 0) :
    (tick^[n] s).isMoving = true ∧ (tick^[n] s).targetSteps = 0 ∧
    (tick^[n] s).stepDirection = s.stepDirection ∧
    (tick^[n] s).youStepPosition
      = s.youStepPosition + n * s.stepDirection := by
  induction n generalizing s with
  | zero => simp [hm, ht]
  | succ n ih =>
    rw [Function.iterate_succ_apply]
    have htick : tick s = executeStep s := by
      simp [tick, hm, ht]
    rw [htick]
    obtain ⟨i1, i2, i3, i4⟩ :=
      ih (executeStep s) (by simp [executeStep, hm]) (by simp [executeStep, ht])
    refine ⟨i1, i2, ?_, ?_⟩
    · rw [i3]; simp [executeStep]
    · rw [i4]
      simp only [executeStep]
      push_cast
      ring

/-- C5: from an enabled driver in a valid phase, a finite forward move of
3 steps (`handleMoveSteps 3`) followed by exactly 3 ticks ends with
`isMoving = false`, the total step counter increased by exactly 3, the
phase advanced by 3 mod 4, and the motor disabled. -/
theorem startFixed3_three_ticks (s : DriverState)
    (hen : s.motorEnabled = true)
    (h0 : 0 ≤ s.currentStep) (h3 : s.currentStep ≤ 3) :
    (tick (tick (tick (handleMoveSteps 3 s)))).isMoving = false ∧
    (tick (tick (tick (handleMoveSteps 3 s)))).totalStepsTaken
      = s.totalStepsTaken + 3 ∧
    (tick (tick (tick (handleMoveSteps 3 s)))).currentStep
      = (s.currentStep + 3) % 4 ∧
    (tick (tick (tick (handleMoveSteps 3 s)))).motorEnabled = false := by
  have hc : s.currentStep = 0 ∨ s.currentStep = 1 ∨
      s.currentStep = 2 ∨ s.currentStep = 3 := by omega
  rcases hc with hc | hc | hc | hc <;>
    simp [handleMoveSteps, enableMotor, tick, executeStep, disableMotor, hc] <;>
    omega

theorem startFixed3_three_ticks_witness :
    ((⟨0, 20, 0, 1, true, false, 0, 0⟩ : DriverState).motorEnabled = true ∧
     0 ≤ (⟨0, 20, 0, 1, true, false, 0, 0⟩ : DriverState).currentStep ∧
     (⟨0, 20, 0, 1, true, false, 0, 0⟩ : DriverState).currentStep ≤ 3) ∧
    ((tick (tick (tick (handleMoveSteps 3 ⟨0, 20, 0, 1, true, false, 0, 0⟩)))).isMoving = false ∧
     (tick (tick (tick (handleMoveSteps 3 ⟨0, 20, 0, 1, true, false, 0, 0⟩)))).totalStepsTaken
       = (⟨0, 20, 0, 1, true, false, 0, 0⟩ : DriverState).totalStepsTaken + 3 ∧
     (tick (tick (tick (handleMoveSteps 3 ⟨0, 20, 0, 1, true, false, 0, 0⟩)))).currentStep
       = ((⟨0, 20, 0, 1, true, false, 0, 0⟩ : DriverState).currentStep + 3) % 4 ∧
     (tick (tick (tick (handleMoveSteps 3 ⟨0, 20, 0, 1, true, false, 0, 0⟩)))).motorEnabled = false) :=
  ⟨⟨by decide, by decide, by decide⟩,
   startFixed3_three_ticks ⟨0, 20, 0, 1, true, false, 0, 0⟩ (by decide)
     (by decide) (by decide)⟩

/-- C6 counterexample: stopping an enabled driver does not leave the
enabled flag unchanged — `handleStop` calls `disableMotor`, so the driver
is de-energized. -/
theorem handleStop_not_enabled_preserving :
    (⟨0, 20, 5, 1, true, true, 0, 0⟩ : DriverState).motorEnabled = true ∧
    (handleStop ⟨0, 20, 5, 1, true, true, 0, 0⟩).motorEnabled = false := by
  decide

/-- C6 (amended): `handleStop` sets `isMoving` to false and `targetSteps`
to 0, and additionally disables the driver (it calls `disableMotor`), for
every driver state — unlike the spec's stop, it does de-energize. -/
theorem handleStop_stops_and_disables (s : DriverState) :
    (handleStop s).isMoving = false ∧ (handleStop s).targetSteps = 0 ∧
    (handleStop s).motorEnabled = false := by
  simp [handleStop, disableMotor]

/-- C7 counterexample: starting a move on a disabled driver is not a
rejected no-op — `handleMove` unconditionally calls `enableMotor` and sets
`isMoving`, for both the continuous and the fixed-step branch. -/
theorem handleMove_disabled_not_noop :
    (⟨0, 20, 0, 1, false, false, 0, 0⟩ : DriverState).motorEnabled = false ∧
    (handleMoveContinuous 1 ⟨0, 20, 0, 1, false, false, 0, 0⟩).isMoving = true ∧
    (handleMoveContinuous 1 ⟨0, 20, 0, 1, false, false, 0, 0⟩).motorEnabled = true ∧
    (handleMoveSteps 3 ⟨0, 20, 0, 1, false, false, 0, 0⟩).isMoving = true ∧
    (handleMoveSteps 3 ⟨0, 20, 0, 1, false, false, 0, 0⟩).motorEnabled = true := by
  decide

/-- C7 (amended): calling either move operation while the driver is not
enabled is not rejected: the operation itself enables the driver and starts
the move. -/
theorem handleMove_enables_and_starts (s : DriverState) (dir steps : Int)
    (hdis : s.motorEnabled = false) :
    (handleMoveContinuous dir s).isMoving = true ∧
    (handleMoveContinuous dir s).motorEnabled = true ∧
    (handleMoveSteps steps s).isMoving = true ∧
    (handleMoveSteps steps s).motorEnabled = true := by
  simp [handleMoveContinuous, handleMoveSteps, enableMotor]

theorem handleMove_enables_and_starts_witness :
    (⟨0, 20, 0, 1, false, false, 0, 0⟩ : DriverState).motorEnabled = false ∧
    ((handleMoveContinuous 1 ⟨0, 20, 0, 1, false, false, 0, 0⟩).isMoving = true ∧
     (handleMoveContinuous 1 ⟨0, 20, 0, 1, false, false, 0, 0⟩).motorEnabled = true ∧
     (handleMoveSteps 3 ⟨0, 20, 0, 1, false, false, 0, 0⟩).isMoving = true ∧
     (handleMoveSteps 3 ⟨0, 20, 0, 1, false, false, 0, 0⟩).motorEnabled = true) :=
  ⟨by decide,
   handleMove_enables_and_starts ⟨0, 20, 0, 1, false, false, 0, 0⟩ 1 3 (by decide)⟩

/-- C10: a finite move request of exactly 0 steps sets the direction to
reverse (-1), `targetSteps` to 0, and `isMoving` to true; the tick loop
then treats the state as continuous mode: after any number n of ticks the
driver is still moving and the position has decreased by n. -/
theorem handleMoveSteps_zero_runs_continuous (s : DriverState) (n : Nat) :
    (handleMoveSteps 0 s).stepDirection = -1 ∧
    (handleMoveSteps 0 s).targetSteps = 0 ∧
    (handleMoveSteps 0 s).isMoving = true ∧
    (tick^[n] (handleMoveSteps 0 s)).isMoving = true ∧
    (tick^[n] (handleMoveSteps 0 s)).youStepPosition
      = (handleMoveSteps 0 s).youStepPosition - n := by
  have hdir : (handleMoveSteps 0 s).stepDirection = -1 := by
    simp [handleMoveSteps, enableMotor]
  have hts : (handleMoveSteps 0 s).targetSteps = 0 := by
    simp [handleMoveSteps, enableMotor]
  have hmv : (handleMoveSteps 0 s).isMoving = true := by
    simp [handleMoveSteps, enableMotor]
  obtain ⟨i1, _, _, i4⟩ :=
    tick_continuous_invariant (handleMoveSteps 0 s) n hmv hts
  refine ⟨hdir, hts, hmv, i1, ?_⟩
  rw [i4, hdir]
  ring

/-! ### Event-log lemmas -/

theorem appendAll_spec (es : List SignalLog) (l : EventLog)
    (htail : l.logTail = 0)
    (hhead : l.logHead = l.logCount % LOG_BUFFER_SIZE)
    (hlen : l.logCount + es.length ≤ LOG_BUFFER_SIZE) :
    (appendAll es l).logTail = 0 ∧
    (appendAll es l).logCount = l.logCount + es.length ∧
    (appendAll es l).logHead = (l.logCount + es.length) % LOG_BUFFER_SIZE ∧
    (appendAll es l).logOverflow = l.logOverflow ∧
    ∀ i : Nat, (appendAll es l).buf i =
      if l.logCount ≤ i ∧ i < l.logCount + es.length
      then es.getD (i - l.logCount) default
      else l.buf i := by
  induction es generalizing l with
  | nil =>
    refine ⟨htail, by simp [appendAll], by simp [appendAll, hhead],
      by simp [appendAll], ?_⟩
    intro i
    simp only [appendAll, List.foldl_nil, List.length_nil, Nat.add_zero]
    rw [if_neg (by omega)]
  | cons e rest ih =>
    have hcount : l.logCount < LOG_BUFFER_SIZE := by
      simp only [List.length_cons] at hlen; omega
    have hmod : l.logCount % LOG_BUFFER_SIZE = l.logCount :=
      Nat.mod_eq_of_lt hcount
    have hstep : appendAll (e :: rest) l = appendAll rest (appendLog e l) := by
      simp [appendAll]
    have hlog : appendLog e l =
        { buf := fun i => if i = l.logCount then e else l.buf i,
          logHead := (l.logCount + 1) % LOG_BUFFER_SIZE,
          logTail := 0, logCount := l.logCount + 1,
          logOverflow := l.logOverflow } := by
      simp only [appendLog, if_pos hcount, hhead, hmod, htail]
    obtain ⟨i1, i2, i3, i4, i5⟩ := ih (appendLog e l)
      (by rw [hlog]) (by rw [hlog])
      (by rw [hlog]
          show l.logCount + 1 + rest.length ≤ LOG_BUFFER_SIZE
          simp only [List.length_cons] at hlen; omega)
    rw [hstep]
    refine ⟨i1, ?_, ?_, ?_, ?_⟩
    · rw [i2, hlog]; simp only [List.length_cons]; omega
    · rw [i3, hlog]; simp only [List.length_cons]
      congr 1; omega
    · rw [i4, hlog]
    · intro i
      rw [i5 i, hlog]
      simp only [List.length_cons]
      rcases Nat.lt_trichotomy i l.logCount with hlt | heq | hgt
      · rw [if_neg (show ¬(l.logCount + 1 ≤ i ∧ i < l.logCount + 1 + rest.length) by omega),
          if_neg (show ¬i = l.logCount by omega),
          if_neg (show ¬(l.logCount ≤ i ∧ i < l.logCount + (rest.length + 1)) by omega)]
      · subst heq
        rw [if_neg (show ¬(l.logCount + 1 ≤ l.logCount ∧
              l.logCount < l.logCount + 1 + rest.length) by omega),
          if_pos rfl,
          if_pos (show l.logCount ≤ l.logCount ∧
              l.logCount < l.logCount + (rest.length + 1) by omega)]
        simp
      · by_cases hin : i < l.logCount + 1 + rest.length
        · rw [if_pos (show l.logCount + 1 ≤ i ∧ i < l.logCount + 1 + rest.length by omega),
            if_pos (show l.logCount ≤ i ∧ i < l.logCount + (rest.length + 1) by omega),
            show i - l.logCount = (i - (l.logCount + 1)) + 1 by omega,
            List.getD_cons_succ]
        · rw [if_neg (show ¬(l.logCount + 1 ≤ i ∧ i < l.logCount + 1 + rest.length) by omega),
            if_neg (show ¬i = l.logCount by omega),
            if_neg (show ¬(l.logCount ≤ i ∧ i < l.logCount + (rest.length + 1)) by omega)]

/-- C4: appending any N ≤ capacity entries to the empty log and then
exporting the full log yields exactly those N entries, oldest to newest,
with identical field values. -/
theorem exportAll_roundtrip (es : List SignalLog)
    (hlen : es.length ≤ LOG_BUFFER_SIZE) :
    exportAll (appendAll es emptyLog) = es := by
  obtain ⟨ht, hc, _, _, hb⟩ := appendAll_spec es emptyLog rfl rfl
    (by simpa [emptyLog] using hlen)
  have hc' : (appendAll es emptyLog).logCount = es.length := by
    simpa [emptyLog] using hc
  apply List.ext_getElem
  · simp [exportAll, hc']
  · intro i h1 h2
    simp only [exportAll, hc', ht, List.getElem_map, List.getElem_range,
      Nat.zero_add]
    rw [Nat.mod_eq_of_lt (by omega), hb i, if_pos (by simp [emptyLog]; omega)]
    simp only [emptyLog, Nat.sub_zero]
    exact List.getD_eq_getElem es default h2

theorem exportAll_roundtrip_witness :
    ([⟨100, true, false, true, false, false⟩,
      ⟨108, false, true, true, false, true⟩] : List SignalLog).length
        ≤ LOG_BUFFER_SIZE ∧
    exportAll (appendAll
      [⟨100, true, false, true, false, false⟩,
       ⟨108, false, true, true, false, true⟩] emptyLog)
      = [⟨100, true, false, true, false, false⟩,
         ⟨108, false, true, true, false, true⟩] :=
  ⟨by decide,
   exportAll_roundtrip
     [⟨100, true, false, true, false, false⟩,
      ⟨108, false, true, true, false, true⟩] (by decide)⟩

/-- C3: appending capacity+1 entries to the empty log leaves the occupied
count equal to the capacity, sets the sticky overflow flag, and the entry
at the tail cursor — the surviving oldest one — is the 2nd entry ever
inserted (the 1st was overwritten). -/
theorem appendAll_overflow (es : List SignalLog)
    (hlen : es.length = LOG_BUFFER_SIZE + 1) :
    (appendAll es emptyLog).logCount = LOG_BUFFER_SIZE ∧
    (appendAll es emptyLog).logOverflow = true ∧
    (appendAll es emptyLog).buf (appendAll es emptyLog).logTail
      = es.getD 1 default := by
  have hne : es ≠ [] := by
    intro h; rw [h] at hlen; simp [LOG_BUFFER_SIZE] at hlen
  have hsplit : es.dropLast ++ [es.getLast hne] = es :=
    List.dropLast_append_getLast hne
  have hfrontlen : es.dropLast.length = LOG_BUFFER_SIZE := by
    rw [List.length_dropLast, hlen]; omega
  obtain ⟨t1, t2, t3, t4, t5⟩ := appendAll_spec es.dropLast emptyLog rfl rfl
    (by simp [emptyLog, hfrontlen])
  have hLcount : (appendAll es.dropLast emptyLog).logCount = LOG_BUFFER_SIZE := by
    rw [t2]; simp [emptyLog, hfrontlen]
  have hLhead : (appendAll es.dropLast emptyLog).logHead = 0 := by
    rw [t3]; simp [emptyLog, hfrontlen]
  have hdecomp : appendAll es emptyLog
      = appendLog (es.getLast hne) (appendAll es.dropLast emptyLog) := by
    conv_lhs => rw [← hsplit]
    simp [appendAll, List.foldl_append]
  have hfinal : appendLog (es.getLast hne) (appendAll es.dropLast emptyLog)
      = { buf := fun i => if i = 0 then es.getLast hne
                          else (appendAll es.dropLast emptyLog).buf i,
          logHead := 1 % LOG_BUFFER_SIZE,
          logTail := 1 % LOG_BUFFER_SIZE,
          logCount := LOG_BUFFER_SIZE, logOverflow := true } := by
    rw [appendLog, if_neg (by rw [hLcount]; omega), hLcount, hLhead, t1]
  rw [hdecomp, hfinal]
  refine ⟨rfl, rfl, ?_⟩
  have hone : 1 % LOG_BUFFER_SIZE = 1 := by simp [LOG_BUFFER_SIZE]
  simp only [hone]
  rw [if_neg (by omega), t5 1,
    if_pos (show emptyLog.logCount ≤ 1 ∧
        1 < emptyLog.logCount + es.dropLast.length by
      simp [emptyLog, hfrontlen, LOG_BUFFER_SIZE]),
    show (1 : Nat) - emptyLog.logCount = 1 by simp [emptyLog]]
  rw [List.getD_eq_getElem es.dropLast default (by rw [hfrontlen]; simp [LOG_BUFFER_SIZE]),
    List.getElem_dropLast,
    List.getD_eq_getElem es default
      (show 1 < es.length by rw [hlen]; norm_num [LOG_BUFFER_SIZE])]

theorem appendAll_overflow_witness :
    (⟨1, true, false, true, false, false⟩ ::
     ⟨2, false, true, true, false, false⟩ ::
     List.replicate 9999 (⟨3, false, true, false, true, true⟩ : SignalLog)).length
        = LOG_BUFFER_SIZE + 1 ∧
    ((appendAll (⟨1, true, false, true, false, false⟩ ::
        ⟨2, false, true, true, false, false⟩ ::
        List.replicate 9999 (⟨3, false, true, false, true, true⟩ : SignalLog))
        emptyLog).logCount = LOG_BUFFER_SIZE ∧
     (appendAll (⟨1, true, false, true, false, false⟩ ::
        ⟨2, false, true, true, false, false⟩ ::
        List.replicate 9999 (⟨3, false, true, false, true, true⟩ : SignalLog))
        emptyLog).logOverflow = true ∧
     (appendAll (⟨1, true, false, true, false, false⟩ ::
        ⟨2, false, true, true, false, false⟩ ::
        List.replicate 9999 (⟨3, false, true, false, true, true⟩ : SignalLog))
        emptyLog).buf
       (appendAll (⟨1, true, false, true, false, false⟩ ::
          ⟨2, false, true, true, false, false⟩ ::
          List.replicate 9999 (⟨3, false, true, false, true, true⟩ : SignalLog))
          emptyLog).logTail
       = (⟨1, true, false, true, false, false⟩ ::
          ⟨2, false, true, true, false, false⟩ ::
          List.replicate 9999 (⟨3, false, true, false, true, true⟩ : SignalLog)).getD
           1 default) :=
  ⟨by rw [List.length_cons, List.length_cons, List.length_replicate]; decide,
   appendAll_overflow
     (⟨1, true, false, true, false, false⟩ ::
      ⟨2, false, true, true, false, false⟩ ::
      List.replicate 9999 (⟨3, false, true, false, true, true⟩ : SignalLog))
     (by rw [List.length_cons, List.length_cons, List.length_replicate]; decide)⟩
